import Mathlib

/-!
Shallow embedding of the statistics and filtering core of the `atropos`
repository excerpt: `src/atropos/commands/stats.py` and
`src/atropos/commands/trim/filters.py`.

Python integers are modelled as `Nat`/`Int`/`ℚ` (exact arithmetic), Python
dicts as insertion-ordered association lists, exceptions as an explicit
`PyErr` paired with the state as mutated so far (Python mutates objects in
place, so the state reached before the raise stays visible).
-/

set_option autoImplicit false

namespace Atropos

/-- Python runtime errors that the embedded code can raise. -/
inductive PyErr where
  | zeroDivisionError
  | nameError
  | unboundLocalError
  | valueError
  | typeError
  deriving DecidableEq, Repr

/-! ## filters.py -/

/-- Constant `DISCARD = True` from filters.py. -/
def DISCARD : Bool := true

/-- Constant `KEEP = False` from filters.py. -/
def KEEP : Bool := false

/-- `PairedWrapper._filter` (filters.py lines 82-90), instrumented with the
list of mates (1-based) on which the wrapped predicate was invoked, in order.
The Boolean component is exactly the value `_filter` returns; the trace
component records each call `self.filter(read1)` / `self.filter(read2)`.
Python's `and`/`or` short-circuiting is reflected in the branch structure:
`self.filter(read2)` is evaluated only when `min_affected - failures == 1`
and `read2 is not None`. -/
def pairedFilterRun {α : Type} (p : α → Bool) (min_affected : Nat)
    (read1 : α) (read2 : Option α) : Bool × List Nat :=
  let failures : Nat := if p read1 then 1 else 0
  if min_affected - failures = 1 then
    match read2 with
    | none => (decide (failures + 1 ≥ min_affected), [1])
    | some r2 =>
        if p r2 then (decide (failures + 1 ≥ min_affected), [1, 2])
        else (decide (failures ≥ min_affected), [1, 2])
  else (decide (failures ≥ min_affected), [1])

/-- The Boolean result of `PairedWrapper._filter`, without the trace. -/
def PairedWrapper.filt {α : Type} (p : α → Bool) (min_affected : Nat)
    (read1 : α) (read2 : Option α) : Bool :=
  (pairedFilterRun p min_affected read1 read2).1

/-- A `FilterWrapper` (filters.py lines 20-55): the wrapped `_filter`
predicate together with the cumulative `filtered` discard counter. -/
structure FilterWrapper (α : Type) where
  filt : α → Option α → Bool
  filtered : Nat

/-- `FilterWrapper.__call__` (filters.py lines 27-36): run `_filter`; on
True increment `self.filtered` and return `DISCARD`, else return `KEEP`. -/
def FilterWrapper.call {α : Type} (w : FilterWrapper α)
    (read1 : α) (read2 : Option α) : Bool × FilterWrapper α :=
  if w.filt read1 read2 then (DISCARD, { w with filtered := w.filtered + 1 })
  else (KEEP, w)

/-- `Filters.filter` (filters.py lines 203-219) over the ordered dict of
wrappers, modelled as an insertion-ordered list of (identifier, wrapper)
pairs.  Returns the identifier of the first wrapper that reports discard
(`none` standing for the `NoFilter` sentinel class) together with the
updated wrapper list; wrappers after the first discarding one are not
invoked. -/
def Filters.filterRec {α ι : Type} :
    List (ι × FilterWrapper α) → α → Option α →
      Option ι × List (ι × FilterWrapper α)
  | [], _, _ => (none, [])
  | (t, w) :: rest, read1, read2 =>
      let res := w.call read1 read2
      if res.1 then (some t, (t, res.2) :: rest)
      else
        let tail := Filters.filterRec rest read1 read2
        (tail.1, (t, res.2) :: tail.2)

/-- `NContentFilter` (filters.py lines 137-164): `is_proportion` is fixed at
construction as `count < 1.0`, `cutoff` is the raw count. -/
structure NContentFilter where
  is_proportion : Bool
  cutoff : ℚ

/-- `NContentFilter.__init__`: `assert count >= 0` then store
`is_proportion = count < 1.0` and `cutoff = count`. -/
def NContentFilter.make (count : ℚ) : NContentFilter :=
  { is_proportion := decide (count < 1), cutoff := count }

/-- The `read` objects consumed by the predicates: `read.sequence` is the
symbol string and `len(read)` is the sequence length. -/
structure SeqRead where
  sequence : List Char
  deriving DecidableEq, Repr

/-- `NContentFilter.__call__`: count `'n'` occurrences in the lower-cased
sequence; in proportion mode a zero-length read is kept, else compare
`n_count / len(read) > cutoff`; in absolute mode compare
`n_count > cutoff` (strict). -/
def NContentFilter.call (f : NContentFilter) (read : SeqRead) : Bool :=
  let n_count : Nat := (read.sequence.map Char.toLower).count 'n'
  if f.is_proportion then
    if read.sequence.length = 0 then false
    else decide ((n_count : ℚ) / (read.sequence.length : ℚ) > f.cutoff)
  else decide ((n_count : ℚ) > f.cutoff)

/-- The discard condition of claim C6, written from the spec's words: in
proportion mode (`c < 1.0`) discard exactly when the read is nonempty and
`N-count / length > c`; in absolute mode discard exactly when
`N-count > c`. -/
def nContentSpec (c : ℚ) (read : SeqRead) : Prop :=
  let n : Nat := (read.sequence.map Char.toLower).count 'n'
  if c < 1 then
    read.sequence.length ≠ 0 ∧ ((n : ℚ) / (read.sequence.length : ℚ) > c)
  else (n : ℚ) > c

/-! ## stats.py: dictionaries from atropos.util -/

/-- Modelled from the spec: `CountingDict` from `atropos.util` is not in the
source excerpt.  Per spec §3 a FrequencyTable maps observed keys to counts,
supporting increment-by-1 and lookup-with-default-zero; keys exist only once
observed.  Modelled as an insertion-ordered association list, matching a
Python dict. -/
abbrev CountingDict (α : Type) : Type := List (α × Nat)

/-- Lookup with default zero. -/
def CountingDict.get {α : Type} [DecidableEq α] (d : CountingDict α) (k : α) : Nat :=
  match d.lookup k with
  | some n => n
  | none => 0

/-- Increment-by-1 (`d[k] += 1`): bump an existing key in place, or append
the key with count 1. -/
def CountingDict.incr {α : Type} [DecidableEq α] (d : CountingDict α) (k : α) :
    CountingDict α :=
  if d.any (fun p => decide (p.1 = k)) then
    d.map (fun p => if p.1 = k then (p.1, p.2 + 1) else p)
  else d ++ [(k, 1)]

/-- The keys of a counting dict, in insertion order. -/
def CountingDict.keys {α : Type} (d : CountingDict α) : List α := d.map Prod.fst

/-- Modelled from the spec: `NestedDict` from `atropos.util` is not in the
source excerpt.  Per spec §3 it maps an outer key to a FrequencyTable,
creating the inner table on first access. -/
abbrev NestedDict (β α : Type) : Type := List (β × CountingDict α)

/-- `nd[k1][k2] += 1` on a nested dict. -/
def NestedDict.incr {β α : Type} [DecidableEq β] [DecidableEq α]
    (d : NestedDict β α) (k1 : β) (k2 : α) : NestedDict β α :=
  if d.any (fun p => decide (p.1 = k1)) then
    d.map (fun p => if p.1 = k1 then (p.1, p.2.incr k2) else p)
  else d ++ [(k1, CountingDict.incr [] k2)]

/-! ## stats.py: table sets -/

/-- `BaseDicts.extend` (stats.py lines 14-18): append `size - len(dicts)`
fresh empty tables when that difference is positive; otherwise leave the
list unchanged.  `empty` stands for `self.dict_class()`. -/
def BaseDicts.extend {δ : Type} (empty : δ) (dicts : List δ) (size : Nat) :
    List δ :=
  if size - dicts.length > 0 then
    dicts ++ List.replicate (size - dicts.length) empty
  else dicts

/-- The union of keys observed across a `BaseCountingDicts` table set (the
`keys` accumulation in stats.py lines 28-30), in first-observed order. -/
def BaseCountingDicts.observedKeys {α : Type} [DecidableEq α]
    (dicts : List (CountingDict α)) : List α :=
  (dicts.foldl (fun acc d => acc ++ d.keys) []).dedup

/-- The header computed by `BaseCountingDicts.flatten` with `datatype="n"`
(stats.py lines 31-34): `A,C,G,T` first (observed or not), then the observed
keys outside `A,C,G,T,N` (Python iterates this set difference in an
unspecified order; the model uses first-observed order, which fixes
membership), then `N` only if observed. -/
def BaseCountingDicts.headerN (dicts : List (CountingDict Char)) : List Char :=
  let keys := BaseCountingDicts.observedKeys dicts
  let acgt : List Char := ['A', 'C', 'G', 'T']
  let npart : List Char := if 'N' ∈ keys then ['N'] else []
  acgt ++ keys.filter (fun k => decide (k ∉ acgt ++ npart)) ++ npart

/-- The header computed by `BaseCountingDicts.flatten` with `datatype=None`
(stats.py line 36): the observed keys, sorted. -/
def BaseCountingDicts.headerSorted {α : Type} [DecidableEq α] [LinearOrder α]
    (dicts : List (CountingDict α)) : List α :=
  (BaseCountingDicts.observedKeys dicts).insertionSort (· ≤ ·)

/-- `BaseCountingDicts.flatten` with `datatype="n"` (stats.py lines 23-41):
the bases-ordering header, and one row per position (1-based) listing the
count of each header key at that position, defaulting to zero. -/
def BaseCountingDicts.flattenN (dicts : List (CountingDict Char)) :
    List Char × List (Nat × List Nat) :=
  let keys := BaseCountingDicts.headerN dicts
  (keys, dicts.enum.map (fun p => (p.1 + 1, keys.map p.2.get)))

/-- `BaseCountingDicts.flatten` with `datatype=None`: sorted header and the
same row shape. -/
def BaseCountingDicts.flattenSorted {α : Type} [DecidableEq α] [LinearOrder α]
    (dicts : List (CountingDict α)) : List α × List (Nat × List Nat) :=
  let keys := BaseCountingDicts.headerSorted dicts
  (keys, dicts.enum.map (fun p => (p.1 + 1, keys.map p.2.get)))

/-! ## stats.py: ReadStatCollector -/

/-- The read records consumed by `ReadStatCollector.collect`: a sequence, an
optional quality string (`none` models Python `None`), and a name. -/
structure Record where
  sequence : List Char
  qualities : Option (List Char)
  name : String

/-- Python truthiness of `record.qualities`: `None` and the empty string
are falsy. -/
def pyTruthy : Option (List Char) → Bool
  | none => false
  | some s => !s.isEmpty

/-- Python `round` to nearest integer, halves to even (banker's rounding),
on exact rationals. -/
def pyRound (q : ℚ) : ℤ :=
  let f : ℤ := Int.fdiv q.num (q.den : ℤ)
  let frac : ℚ := q - (f : ℚ)
  if frac < 1 / 2 then f
  else if 1 / 2 < frac then f + 1
  else if f % 2 = 0 then f else f + 1

/-- `ReadStatCollector` state (stats.py lines 119-149).  The tile regular
expression is modelled as a matching function from a read name to the
captured tile group (`none` = no match); quality tables are `none` until
`_init_qualities` allocates them. -/
structure ReadStatCollector where
  max_read_len : Nat
  count : Nat
  sequence_lengths : CountingDict Nat
  sequence_gc : CountingDict ℤ
  bases : List (CountingDict Char)
  qualities : Option Bool
  tile_key_regexp : Option (String → Option String)
  sequence_qualities : Option (CountingDict ℤ)
  base_qualities : Option (List (CountingDict Char))
  tile_base_qualities : Option (List (NestedDict String Char))
  tile_sequence_qualities : Option (NestedDict String ℤ)

/-- `ReadStatCollector._init_qualities` (stats.py lines 142-149). -/
def ReadStatCollector.init_qualities (c : ReadStatCollector) :
    ReadStatCollector :=
  let c := { c with sequence_qualities := some [], base_qualities := some [] }
  if c.tile_key_regexp.isSome then
    { c with tile_base_qualities := some [], tile_sequence_qualities := some [] }
  else c

/-- `ReadStatCollector.__init__` (stats.py lines 120-140). -/
def ReadStatCollector.make (qualities : Option Bool)
    (tile_key_regexp : Option (String → Option String)) : ReadStatCollector :=
  let c : ReadStatCollector :=
    { max_read_len := 0, count := 0, sequence_lengths := [], sequence_gc := [],
      bases := [], qualities := qualities, tile_key_regexp := tile_key_regexp,
      sequence_qualities := none, base_qualities := none,
      tile_base_qualities := none, tile_sequence_qualities := none }
  if qualities = some true then c.init_qualities else c

/-- `ReadStatCollector.track_tiles` (stats.py lines 171-173). -/
def ReadStatCollector.track_tiles (c : ReadStatCollector) : Bool :=
  decide (c.qualities = some true) && c.tile_key_regexp.isSome

/-- In-place update of a list element (`xs[i]` mutation); indices out of
range leave the list unchanged (the embedded code never produces them). -/
def listModify {δ : Type} : List δ → Nat → (δ → δ) → List δ
  | [], _, _ => []
  | x :: xs, 0, f => f x :: xs
  | x :: xs, n + 1, f => x :: listModify xs n f

/-- `ReadStatCollector.add_base` (stats.py lines 214-219): always count the
base; count the quality only when `qual` is truthy (a present quality char
always is), and the tile quality only when `tile` is truthy (the empty
string is falsy). -/
def ReadStatCollector.add_base (c : ReadStatCollector) (i : Nat) (base : Char)
    (qual : Option Char) (tile : Option String) : ReadStatCollector :=
  let c := { c with bases := listModify c.bases i (fun d => d.incr base) }
  match qual with
  | none => c
  | some q =>
      let c := { c with
        base_qualities := c.base_qualities.map (fun l => listModify l i (fun d => CountingDict.incr d q)) }
      match tile with
      | none => c
      | some t =>
          if t = "" then c
          else { c with
            tile_base_qualities :=
              c.tile_base_qualities.map (fun l => listModify l i (fun nd => NestedDict.incr nd t q)) }

/-- `ReadStatCollector._extend_bases` (stats.py lines 221-226). -/
def ReadStatCollector.extend_bases (c : ReadStatCollector) (new_size : Nat) :
    ReadStatCollector :=
  let c := { c with bases := BaseDicts.extend [] c.bases new_size }
  if c.qualities = some true then
    let c := { c with
      base_qualities := c.base_qualities.map
        (fun l => BaseDicts.extend [] l new_size) }
    if c.track_tiles then
      { c with
        tile_base_qualities := c.tile_base_qualities.map
          (fun l => BaseDicts.extend [] l new_size) }
    else c
  else c

/-- The per-base loop of `collect` (stats.py lines 209-210): iterate over
`zip(seq, quals)` with 0-based positions. -/
def ReadStatCollector.addBaseLoop (c : ReadStatCollector)
    (seq quals : List Char) (tile : Option String) : ReadStatCollector :=
  ((seq.zip quals).enum).foldl
    (fun acc p => acc.add_base p.1 p.2.1 (some p.2.2) tile) c

/-- The part of `collect` from `qual = tile = None` onward (stats.py lines
191-210): mean-quality and tile handling, then the per-base loop.  `seq` and
`seqlen` are the locals computed earlier in `collect`.  The local `quals` is
assigned only under `if self.qualities:`, so when quality tracking is
inactive line 209's `zip(seq, quals)` raises `UnboundLocalError` before any
base is counted; `quals = None` (quality tracking active but a read without
qualities) raises `TypeError` inside `sum(ord(q) for q in quals)` at line
196; line 205 raises `ValueError` when tile tracking is active and the name
does not match. -/
def ReadStatCollector.collectTail (c : ReadStatCollector) (r : Record)
    (seq : List Char) (seqlen : Nat) : ReadStatCollector × Option PyErr :=
  if c.qualities = some true then
    match r.qualities with
    | none => (c, some PyErr.typeError)
    | some quals =>
        let meanqual : ℤ :=
          pyRound (((quals.foldl (fun s q => s + q.toNat) 0 : Nat) : ℚ) /
            (seqlen : ℚ))
        let c := { c with
          sequence_qualities :=
            c.sequence_qualities.map (fun d => CountingDict.incr d meanqual) }
        if c.track_tiles then
          match c.tile_key_regexp.bind (fun rex => rex r.name) with
          | some tile =>
              let c := { c with
                tile_sequence_qualities :=
                  c.tile_sequence_qualities.map
                    (fun nd => NestedDict.incr nd tile meanqual) }
              (c.addBaseLoop seq quals (some tile), none)
          | none => (c, some PyErr.valueError)
        else (c.addBaseLoop seq quals none, none)
  else (c, some PyErr.unboundLocalError)

/-- `ReadStatCollector.collect` (stats.py lines 175-212), returning the
state as mutated so far together with the Python error raised, if any.
Line 182 divides by `seqlen`, so an empty sequence raises
`ZeroDivisionError` before any count is touched; the rest of the body is
`collectTail`. -/
def ReadStatCollector.collect (c0 : ReadStatCollector) (r : Record) :
    ReadStatCollector × Option PyErr :=
  let c := if c0.qualities = none ∧ pyTruthy r.qualities = true then
      ReadStatCollector.init_qualities { c0 with qualities := some true }
    else c0
  let seq := r.sequence
  let seqlen := seq.length
  if seqlen = 0 then (c, some PyErr.zeroDivisionError)
  else
    let gc : ℤ :=
      pyRound (((seq.count 'C' + seq.count 'G' : Nat) : ℚ) * 100 / (seqlen : ℚ))
    let c := { c with count := c.count + 1,
                      sequence_lengths := c.sequence_lengths.incr seqlen,
                      sequence_gc := c.sequence_gc.incr gc }
    let c := if seqlen > c.max_read_len then c.extend_bases seqlen else c
    c.collectTail r seq seqlen

/-- Repeated `collect` over a stream of records, keeping the state reached
so far (Python mutates the collector in place, so mutations made before an
exception persist). -/
def ReadStatCollector.collectAll (c : ReadStatCollector) (rs : List Record) :
    ReadStatCollector :=
  rs.foldl (fun acc r => (acc.collect r).1) c

/-! ## stats.py: ReadStatistics manager -/

/-- `ReadStatistics` phase state (stats.py lines 62-117): the optional
pre-trim collector list and the optional post-trim mapping destination →
collectors (insertion-ordered).  The collector type is abstract here; only
`finish` is embedded. -/
structure ReadStatistics (γ : Type) where
  pre : Option (List γ)
  post : Option (List (String × List γ))

/-- The shape `ReadStatistics.finish` is meant to build: optional entries
for the `pre` and `post` phases. -/
structure FinishResult (ρ : Type) where
  pre : Option (List (String × ρ))
  post : Option (List (String × List (String × ρ)))

/-- `ReadStatistics.finish` (stats.py lines 105-117), with `fin` standing
for each collector's own `finish()`.  The pre phase is keyed `read1`,
`read2`; for the post phase the source executes `result[post][dest] = ...`
where `post` is an unbound bare name (line 114), so the first destination
raises `NameError`. -/
def ReadStatistics.finish {γ ρ : Type} (rs : ReadStatistics γ) (fin : γ → ρ) :
    Except PyErr (FinishResult ρ) :=
  let mates : List γ → List (String × ρ) := fun cs =>
    cs.enum.map (fun p => ("read" ++ toString (p.1 + 1), fin p.2))
  let preRes := rs.pre.map mates
  match rs.post with
  | none => Except.ok { pre := preRes, post := none }
  | some [] => Except.ok { pre := preRes, post := some [] }
  | some (_ :: _) => Except.error PyErr.nameError

/-! ## Theorems: paired evaluation policy -/

/-- C4: under the paired evaluation policy with both mates present, the pair
is discarded iff the number of mates on which the predicate holds is at
least `min_affected` (so for `min_affected = 2`, mate 1 failing and mate 2
passing keeps the pair); and for `min_affected = 1`, if the predicate holds
on mate 1 the pair is discarded with the predicate invoked on mate 1
only. -/
theorem c4_paired_policy_discard_iff {α : Type} (p : α → Bool) :
    (∀ (min_affected : Nat) (r1 r2 : α),
      ((pairedFilterRun p min_affected r1 (some r2)).1 = true ↔
        (if p r1 then 1 else 0) + (if p r2 then 1 else 0) ≥ min_affected)) ∧
    (∀ (r1 : α) (r2 : Option α), p r1 = true →
      (pairedFilterRun p 1 r1 r2).1 = true ∧
      (pairedFilterRun p 1 r1 r2).2 = [1]) := by
  constructor
  · intro ma r1 r2
    unfold pairedFilterRun
    by_cases h1 : p r1 <;> by_cases h2 : p r2 <;>
      simp only [h1, h2, if_true, if_false] <;>
      split_ifs with h <;>
      simp only [decide_eq_true_eq, ge_iff_le] <;>
      omega
  · intro r1 r2 h
    unfold pairedFilterRun
    simp [h]

/-- Witness for C4: `min_affected = 2`, mate 1 fails and mate 2 passes, so
the pair is kept; and `min_affected = 1` with mate 1 failing discards the
pair while the predicate is invoked on mate 1 only. -/
theorem c4_paired_policy_discard_iff_witness :
    ¬ ((pairedFilterRun (fun n : Nat => decide (n = 0)) 2 0 (some 1)).1 = true) ∧
    (pairedFilterRun (fun n : Nat => decide (n = 0)) 1 0 (some 1)).1 = true ∧
    (pairedFilterRun (fun n : Nat => decide (n = 0)) 1 0 (some 1)).2 = [1] := by
  refine ⟨fun h => ?_, ?_⟩
  · exact absurd
      (((c4_paired_policy_discard_iff (fun n : Nat => decide (n = 0))).1
        2 0 1).mp h) (by decide)
  · exact (c4_paired_policy_discard_iff (fun n : Nat => decide (n = 0))).2 0
      (some 1) (by decide)

/-- C10: under the paired policy with mate 2 absent, when the remaining
failures needed to reach `min_affected` after evaluating mate 1 is exactly
1, the missing mate is counted as a failure and the pair is discarded. -/
theorem c10_missing_mate_counts_as_failure {α : Type} (p : α → Bool)
    (min_affected : Nat) (read1 : α)
    (h : min_affected - (if p read1 then 1 else 0) = 1) :
    (pairedFilterRun p min_affected read1 none).1 = true := by
  unfold pairedFilterRun
  simp only [h, if_true, reduceIte]
  simp only [decide_eq_true_eq, ge_iff_le]
  omega

/-- Witness for C10: `min_affected = 1`, `read2 = None`, predicate rejects
mate 1, yet the pair is discarded. -/
theorem c10_missing_mate_counts_as_failure_witness :
    (1 : Nat) - (if (fun _ : Nat => false) 0 then 1 else 0) = 1 ∧
    (pairedFilterRun (fun _ : Nat => false) 1 0 none).1 = true :=
  ⟨by decide, c10_missing_mate_counts_as_failure (fun _ : Nat => false) 1 0
    (by decide)⟩

/-! ## Theorems: filter chain -/

theorem filterRec_of_all_keep {α ι : Type} (read1 : α) (read2 : Option α) :
    ∀ fs : List (ι × FilterWrapper α),
      (∀ x ∈ fs, x.2.filt read1 read2 = false) →
      Filters.filterRec fs read1 read2 = (none, fs) := by
  intro fs
  induction fs with
  | nil => intro _; rfl
  | cons hd tl ih =>
      intro h
      obtain ⟨t, w⟩ := hd
      have hw : w.filt read1 read2 = false := h (t, w) (List.mem_cons_self _ _)
      simp [Filters.filterRec, FilterWrapper.call, hw, KEEP,
        ih (fun x hx => h x (List.mem_cons_of_mem _ hx))]

/-- C5: `Filters.filter` evaluates wrappers strictly in insertion order:
with every wrapper before position `j` keeping and the wrapper at `j`
discarding, the result is the identifier at `j`, its counter alone is
incremented, and the wrappers after `j` are returned untouched; when no
wrapper discards, the `NoFilter` sentinel (`none`) is returned with every
counter unchanged. -/
theorem c5_filter_chain_first_discard {α ι : Type} (read1 : α)
    (read2 : Option α) :
    (∀ (pre post : List (ι × FilterWrapper α)) (t : ι) (w : FilterWrapper α),
      (∀ x ∈ pre, x.2.filt read1 read2 = false) →
      w.filt read1 read2 = true →
      Filters.filterRec (pre ++ (t, w) :: post) read1 read2 =
        (some t, pre ++ (t, { w with filtered := w.filtered + 1 }) :: post)) ∧
    (∀ fs : List (ι × FilterWrapper α),
      (∀ x ∈ fs, x.2.filt read1 read2 = false) →
      Filters.filterRec fs read1 read2 = (none, fs)) := by
  refine ⟨?_, filterRec_of_all_keep read1 read2⟩
  intro pre
  induction pre with
  | nil =>
      intro post t w _ hw
      simp [Filters.filterRec, FilterWrapper.call, hw, DISCARD]
  | cons hd tl ih =>
      intro post t w hpre hw
      obtain ⟨t0, w0⟩ := hd
      have h0 : w0.filt read1 read2 = false :=
        hpre (t0, w0) (List.mem_cons_self _ _)
      simp [Filters.filterRec, FilterWrapper.call, h0, KEEP,
        ih post t w (fun x hx => hpre x (List.mem_cons_of_mem _ hx)) hw]

/-- Witness for C5: an always-discard filter `1` inserted before a
never-discard filter `2`; `filter` returns identifier `1`, bumps its
counter to 1, and filter `2`'s counter stays 0. -/
theorem c5_filter_chain_first_discard_witness :
    Filters.filterRec
        [((1 : Nat), ⟨fun _ _ => true, 0⟩), (2, ⟨fun _ _ => false, 0⟩)]
        (0 : Nat) none =
      (some 1, [(1, ⟨fun _ _ => true, 1⟩), (2, ⟨fun _ _ => false, 0⟩)]) :=
  (c5_filter_chain_first_discard (0 : Nat) none).1 []
    [(2, ⟨fun _ _ => false, 0⟩)] 1 ⟨fun _ _ => true, 0⟩
    (by intro x hx; cases hx) rfl

/-! ## Theorems: N-content predicate -/

/-- C6: with cutoff `c ≥ 0`, the N-content predicate discards a read
exactly as the spec states: in proportion mode (`c < 1.0`) when the read is
nonempty and `N-count / length > c`, and in absolute mode when
`N-count > c` with a strictly-greater comparison. -/
theorem c6_ncontent_filter (c : ℚ) (_hc : 0 ≤ c) (read : SeqRead) :
    (NContentFilter.make c).call read = true ↔ nContentSpec c read := by
  unfold NContentFilter.make NContentFilter.call nContentSpec
  by_cases h1 : c < 1 <;>
    by_cases h0 : read.sequence.length = 0 <;>
    simp [h1, h0]

/-- Witness for C6: in absolute mode with cutoff 1, a read with exactly one
N is kept and a read with two Ns is discarded (strictly-greater
semantics). -/
theorem c6_ncontent_filter_witness :
    (0 : ℚ) ≤ 1 ∧
    (NContentFilter.make 1).call ⟨['A', 'N']⟩ = false ∧
    (NContentFilter.make 1).call ⟨['A', 'N', 'N']⟩ = true := by
  refine ⟨by norm_num, by decide, ?_⟩
  exact (c6_ncontent_filter 1 (by norm_num) ⟨['A', 'N', 'N']⟩).mpr
    (by unfold nContentSpec; norm_num; decide)

/-! ## Helper lemmas for the collector -/

@[simp]
theorem listModify_length {δ : Type} (l : List δ) (n : Nat) (f : δ → δ) :
    (listModify l n f).length = l.length := by
  induction l generalizing n with
  | nil => rfl
  | cons x xs ih => cases n <;> simp [listModify, ih]

theorem BaseDicts.extend_length {δ : Type} (e : δ) (l : List δ) (n : Nat) :
    (BaseDicts.extend e l n).length = max l.length n := by
  unfold BaseDicts.extend
  split <;> simp <;> omega

theorem BaseDicts.extend_take {δ : Type} (e : δ) (l : List δ) (n : Nat) :
    (BaseDicts.extend e l n).take l.length = l := by
  unfold BaseDicts.extend
  split
  · exact List.take_left l _
  · exact List.take_length l

theorem BaseDicts.extend_append {δ : Type} (e : δ) (l : List δ) (n : Nat) :
    ∃ tail : List δ, BaseDicts.extend e l n = l ++ tail := by
  unfold BaseDicts.extend
  split
  · exact ⟨_, rfl⟩
  · exact ⟨[], (List.append_nil l).symm⟩

@[simp]
theorem init_qualities_max_read_len (c : ReadStatCollector) :
    c.init_qualities.max_read_len = c.max_read_len := by
  unfold ReadStatCollector.init_qualities
  dsimp only
  split <;> rfl

@[simp]
theorem init_qualities_count (c : ReadStatCollector) :
    c.init_qualities.count = c.count := by
  unfold ReadStatCollector.init_qualities
  dsimp only
  split <;> rfl

@[simp]
theorem init_qualities_bases (c : ReadStatCollector) :
    c.init_qualities.bases = c.bases := by
  unfold ReadStatCollector.init_qualities
  dsimp only
  split <;> rfl

@[simp]
theorem init_qualities_qualities (c : ReadStatCollector) :
    c.init_qualities.qualities = c.qualities := by
  unfold ReadStatCollector.init_qualities
  dsimp only
  split <;> rfl

@[simp]
theorem init_qualities_tile_key_regexp (c : ReadStatCollector) :
    c.init_qualities.tile_key_regexp = c.tile_key_regexp := by
  unfold ReadStatCollector.init_qualities
  dsimp only
  split <;> rfl

@[simp]
theorem extend_bases_max_read_len (c : ReadStatCollector) (n : Nat) :
    (c.extend_bases n).max_read_len = c.max_read_len := by
  unfold ReadStatCollector.extend_bases
  try dsimp only
  split
  · try dsimp only
    split <;> rfl
  · rfl

@[simp]
theorem extend_bases_count (c : ReadStatCollector) (n : Nat) :
    (c.extend_bases n).count = c.count := by
  unfold ReadStatCollector.extend_bases
  try dsimp only
  split
  · try dsimp only
    split <;> rfl
  · rfl

@[simp]
theorem extend_bases_sequence_lengths (c : ReadStatCollector) (n : Nat) :
    (c.extend_bases n).sequence_lengths = c.sequence_lengths := by
  unfold ReadStatCollector.extend_bases
  try dsimp only
  split
  · try dsimp only
    split <;> rfl
  · rfl

@[simp]
theorem extend_bases_sequence_gc (c : ReadStatCollector) (n : Nat) :
    (c.extend_bases n).sequence_gc = c.sequence_gc := by
  unfold ReadStatCollector.extend_bases
  try dsimp only
  split
  · try dsimp only
    split <;> rfl
  · rfl

@[simp]
theorem extend_bases_sequence_qualities (c : ReadStatCollector) (n : Nat) :
    (c.extend_bases n).sequence_qualities = c.sequence_qualities := by
  unfold ReadStatCollector.extend_bases
  try dsimp only
  split
  · try dsimp only
    split <;> rfl
  · rfl

@[simp]
theorem extend_bases_qualities (c : ReadStatCollector) (n : Nat) :
    (c.extend_bases n).qualities = c.qualities := by
  unfold ReadStatCollector.extend_bases
  try dsimp only
  split
  · try dsimp only
    split <;> rfl
  · rfl

@[simp]
theorem extend_bases_tile_key_regexp (c : ReadStatCollector) (n : Nat) :
    (c.extend_bases n).tile_key_regexp = c.tile_key_regexp := by
  unfold ReadStatCollector.extend_bases
  try dsimp only
  split
  · try dsimp only
    split <;> rfl
  · rfl

@[simp]
theorem extend_bases_bases (c : ReadStatCollector) (n : Nat) :
    (c.extend_bases n).bases = BaseDicts.extend [] c.bases n := by
  unfold ReadStatCollector.extend_bases
  try dsimp only
  split
  · try dsimp only
    split <;> rfl
  · rfl

theorem add_base_bases (c : ReadStatCollector) (i : Nat) (b : Char)
    (q : Option Char) (t : Option String) :
    (c.add_base i b q t).bases = listModify c.bases i (fun d => d.incr b) := by
  unfold ReadStatCollector.add_base
  cases q with
  | none => rfl
  | some q =>
      cases t with
      | none => rfl
      | some t =>
          try dsimp only
          split <;> rfl

theorem add_base_max_read_len (c : ReadStatCollector) (i : Nat) (b : Char)
    (q : Option Char) (t : Option String) :
    (c.add_base i b q t).max_read_len = c.max_read_len := by
  unfold ReadStatCollector.add_base
  cases q with
  | none => rfl
  | some q =>
      cases t with
      | none => rfl
      | some t =>
          try dsimp only
          split <;> rfl

@[simp]
theorem addBaseLoop_bases_length (c : ReadStatCollector)
    (seq quals : List Char) (tile : Option String) :
    (c.addBaseLoop seq quals tile).bases.length = c.bases.length := by
  unfold ReadStatCollector.addBaseLoop
  generalize (seq.zip quals).enum = l
  induction l generalizing c with
  | nil => rfl
  | cons x xs ih =>
      simp only [List.foldl_cons]
      rw [ih, add_base_bases, listModify_length]

@[simp]
theorem addBaseLoop_max_read_len (c : ReadStatCollector)
    (seq quals : List Char) (tile : Option String) :
    (c.addBaseLoop seq quals tile).max_read_len = c.max_read_len := by
  unfold ReadStatCollector.addBaseLoop
  generalize (seq.zip quals).enum = l
  induction l generalizing c with
  | nil => rfl
  | cons x xs ih =>
      simp only [List.foldl_cons]
      rw [ih, add_base_max_read_len]

theorem collectTail_max_read_len (c : ReadStatCollector) (r : Record)
    (seq : List Char) (seqlen : Nat) :
    ((c.collectTail r seq seqlen).1).max_read_len = c.max_read_len := by
  unfold ReadStatCollector.collectTail
  split
  · split
    · rfl
    · try dsimp only
      split
      · split <;> simp
      · simp
  · rfl

theorem collectTail_bases_length (c : ReadStatCollector) (r : Record)
    (seq : List Char) (seqlen : Nat) :
    ((c.collectTail r seq seqlen).1).bases.length = c.bases.length := by
  unfold ReadStatCollector.collectTail
  split
  · split
    · rfl
    · try dsimp only
      split
      · split <;> simp
      · simp
  · rfl

theorem collect_max_read_len (c : ReadStatCollector) (r : Record) :
    ((c.collect r).1).max_read_len = c.max_read_len := by
  unfold ReadStatCollector.collect
  dsimp only
  split
  · split
    · simp
    · rfl
  · split
    · rw [collectTail_max_read_len]
      split
      · simp
      · simp
    · rw [collectTail_max_read_len]
      split
      · simp
      · rfl

theorem collect_bases_length (c : ReadStatCollector) (r : Record)
    (h : c.max_read_len = 0) :
    ((c.collect r).1).bases.length = max c.bases.length r.sequence.length := by
  unfold ReadStatCollector.collect
  dsimp only
  split
  · rename_i hlen
    rw [hlen]
    split
    · simp
    · simp
  · rename_i hlen
    split
    · rename_i hact
      rw [collectTail_bases_length]
      split
      · simp only [extend_bases_bases, init_qualities_bases,
          BaseDicts.extend_length]
      · rename_i hext
        simp only [init_qualities_max_read_len] at hext
        exfalso
        rw [show ({ c with qualities := some true } :
            ReadStatCollector).max_read_len = c.max_read_len from rfl, h] at hext
        omega
    · rename_i hact
      rw [collectTail_bases_length]
      split
      · simp only [extend_bases_bases, BaseDicts.extend_length]
      · rename_i hext
        rw [show ({ c with count := c.count + 1, sequence_lengths := c.sequence_lengths.incr r.sequence.length, sequence_gc := c.sequence_gc.incr (pyRound (((r.sequence.count 'C' + r.sequence.count 'G' : Nat) : ℚ) * 100 / (r.sequence.length : ℚ))) } : ReadStatCollector).max_read_len = c.max_read_len from rfl, h] at hext
        omega

theorem collectTail_tile_mismatch (c : ReadStatCollector) (r : Record)
    (seq : List Char) (seqlen : Nat) (rex : String → Option String)
    (quals : List Char) (hq : c.qualities = some true)
    (ht : c.tile_key_regexp = some rex) (hrq : r.qualities = some quals)
    (hmiss : rex r.name = none) :
    c.collectTail r seq seqlen =
      ({ c with sequence_qualities := c.sequence_qualities.map (fun d => CountingDict.incr d (pyRound (((quals.foldl (fun s q => s + q.toNat) 0 : Nat) : ℚ) / (seqlen : ℚ)))) }, some PyErr.valueError) := by
  simp [ReadStatCollector.collectTail, hq, hrq, ht, hmiss,
    ReadStatCollector.track_tiles]

theorem make_max_read_len (q : Option Bool)
    (t : Option (String → Option String)) :
    (ReadStatCollector.make q t).max_read_len = 0 := by
  unfold ReadStatCollector.make
  dsimp only
  split <;> simp

theorem make_bases (q : Option Bool) (t : Option (String → Option String)) :
    (ReadStatCollector.make q t).bases = [] := by
  unfold ReadStatCollector.make
  dsimp only
  split <;> simp

theorem collectAll_bases_length (rs : List Record) (c : ReadStatCollector)
    (h : c.max_read_len = 0) :
    (c.collectAll rs).bases.length =
      (rs.map (fun r => r.sequence.length)).foldl max c.bases.length := by
  induction rs generalizing c with
  | nil => rfl
  | cons r rs ih =>
      unfold ReadStatCollector.collectAll at ih ⊢
      simp only [List.foldl_cons, List.map_cons]
      have h2 : ((c.collect r).1).max_read_len = 0 := by
        rw [collect_max_read_len]; exact h
      rw [ih _ h2, collect_bases_length c r h]

/-! ## Theorems: the collector -/

/-- C1 (code bug): `collect` is meant to count the observed base at every
position even for a read without quality data, but the local `quals` is
assigned only when quality tracking is active, so such a read raises
`UnboundLocalError` at `zip(seq, quals)` (stats.py line 209) and the
base-composition table at position 0 stays empty instead of counting the
observed `A`. -/
theorem c1_base_counts_lost_without_qualities :
    (((ReadStatCollector.make none none).collect
        ⟨['A'], none, "r"⟩).2 = some PyErr.unboundLocalError) ∧
    ((((ReadStatCollector.make none none).collect
        ⟨['A'], none, "r"⟩).1.bases.map (fun d => CountingDict.get d 'A')) =
      [0]) :=
  ⟨rfl, rfl⟩

/-- C2 (code bug): `collect` divides by `seqlen` unconditionally at
stats.py line 182, so a zero-length read raises `ZeroDivisionError` and
nothing (in particular no GC% of 0) is recorded: the collector state is
returned unchanged. -/
theorem c2_zero_length_read_division_error :
    (ReadStatCollector.make none none).collect ⟨[], none, "r"⟩ =
      (ReadStatCollector.make none none, some PyErr.zeroDivisionError) :=
  rfl

/-- Counterexample to C3 as stated: with tile tracking enabled and a name
that does not match, `collect` does raise the fatal error, but the failure
is not atomic — the read count is already 1 afterwards, not 0. -/
theorem c3_tile_mismatch_counterexample :
    (((ReadStatCollector.make (some true) (some (fun _ => none))).collect
        ⟨['A'], some ['#'], "x"⟩).2 = some PyErr.valueError) ∧
    (((ReadStatCollector.make (some true) (some (fun _ => none))).collect
        ⟨['A'], some ['#'], "x"⟩).1.count = 1) :=
  ⟨rfl, rfl⟩

/-- C3 (corrected): when tile tracking is active and the read name does not
match the pattern, `collect` raises the fatal `ValueError`, but the counts
updated before the tile check remain visible: the read count, length
distribution, GC distribution and mean-quality distribution are updated,
while the positional base tables receive no new counts (existing positions
unchanged, newly extended positions empty). -/
theorem c3_tile_mismatch_raises_with_partial_counts
    (c : ReadStatCollector) (r : Record) (rex : String → Option String)
    (quals : List Char)
    (hq : c.qualities = some true) (ht : c.tile_key_regexp = some rex)
    (hrq : r.qualities = some quals) (hmiss : rex r.name = none)
    (hseq : r.sequence ≠ []) :
    ((c.collect r).2 = some PyErr.valueError) ∧
    ((c.collect r).1.count = c.count + 1) ∧
    ((c.collect r).1.sequence_lengths =
      c.sequence_lengths.incr r.sequence.length) ∧
    (∃ g : ℤ, (c.collect r).1.sequence_gc = c.sequence_gc.incr g) ∧
    (∃ m : ℤ, (c.collect r).1.sequence_qualities =
      c.sequence_qualities.map (fun d => CountingDict.incr d m)) ∧
    ((c.collect r).1.bases.take c.bases.length = c.bases) ∧
    (∀ d ∈ (c.collect r).1.bases.drop c.bases.length, d = []) := by
  have hlen : r.sequence.length ≠ 0 := by
    simpa using hseq
  have hact : ¬(c.qualities = none ∧ pyTruthy r.qualities = true) := by
    simp [hq]
  unfold ReadStatCollector.collect
  dsimp only
  rw [if_neg hlen]
  simp only [if_neg hact]
  split
  · rename_i hext
    rw [collectTail_tile_mismatch _ r r.sequence r.sequence.length rex quals
      (by simp [hq]) (by simp [ht]) hrq hmiss]
    refine ⟨rfl, by simp, by simp, ⟨pyRound (((r.sequence.count 'C' + r.sequence.count 'G' : Nat) : ℚ) * 100 / (r.sequence.length : ℚ)), by simp⟩, ⟨pyRound (((quals.foldl (fun s q => s + q.toNat) 0 : Nat) : ℚ) / (r.sequence.length : ℚ)), by simp⟩, ?_, ?_⟩
    · simp [BaseDicts.extend_take]
    · intro d hd
      simp only [extend_bases_bases] at hd
      unfold BaseDicts.extend at hd
      split at hd
      · rw [List.drop_left] at hd
        exact List.eq_of_mem_replicate hd
      · simp at hd
  · rename_i hext
    rw [collectTail_tile_mismatch _ r r.sequence r.sequence.length rex quals
      (by simp [hq]) (by simp [ht]) hrq hmiss]
    refine ⟨rfl, by simp, by simp, ⟨pyRound (((r.sequence.count 'C' + r.sequence.count 'G' : Nat) : ℚ) * 100 / (r.sequence.length : ℚ)), by simp⟩, ⟨pyRound (((quals.foldl (fun s q => s + q.toNat) 0 : Nat) : ℚ) / (r.sequence.length : ℚ)), by simp⟩, ?_, ?_⟩
    · simp [List.take_length]
    · intro d hd
      simp at hd

/-- Witness for C3: a concrete collector with tile tracking and a
non-matching name; the error is raised and the read count is visibly
incremented. -/
theorem c3_tile_mismatch_raises_with_partial_counts_witness :
    (((ReadStatCollector.make (some true) (some (fun _ => none))).collect
        ⟨['C'], some ['!'], "y"⟩).2 = some PyErr.valueError) ∧
    (((ReadStatCollector.make (some true) (some (fun _ => none))).collect
        ⟨['C'], some ['!'], "y"⟩).1.count =
      (ReadStatCollector.make (some true) (some (fun _ => none))).count + 1) := by
  have h := c3_tile_mismatch_raises_with_partial_counts
    (ReadStatCollector.make (some true) (some (fun _ => none)))
    ⟨['C'], some ['!'], "y"⟩ (fun _ => none) ['!']
    rfl rfl rfl rfl (by simp)
  exact ⟨h.1, h.2.1⟩

/-- C7 (code bug): `ReadStatistics.finish` is meant to key post-trim
results by the phase key and then by destination, but stats.py line 114
indexes `result[post]` with the unbound bare name `post`, so any state with
at least one post-trim destination raises `NameError` instead of returning
the keyed structure. -/
theorem c7_finish_post_phase_nameerror :
    @ReadStatistics.finish Unit Unit ⟨none, some [("d", [()])]⟩ (fun _ => ()) =
      Except.error PyErr.nameError :=
  rfl

/-- C8: after any sequence of `collect` calls on a fresh collector the
base-composition table-set length equals the maximum observed read length
(0 when no reads were seen), and `BaseDicts.extend` only ever appends empty
tables — its result has length `max current size`, never shorter than
before, with the original tables as an unchanged initial segment. -/
theorem c8_table_set_length_is_max_read_length :
    (∀ (q : Option Bool) (t : Option (String → Option String))
        (rs : List Record),
      ((ReadStatCollector.make q t).collectAll rs).bases.length =
        (rs.map (fun r => r.sequence.length)).foldl max 0) ∧
    (∀ (δ : Type) (e : δ) (l : List δ) (n : Nat),
      (BaseDicts.extend e l n).length = max l.length n ∧
      l.length ≤ (BaseDicts.extend e l n).length ∧
      (BaseDicts.extend e l n).take l.length = l) := by
  constructor
  · intro q t rs
    rw [collectAll_bases_length rs _ (make_max_read_len q t), make_bases]
    simp
  · intro δ e l n
    refine ⟨BaseDicts.extend_length e l n, ?_, BaseDicts.extend_take e l n⟩
    rw [BaseDicts.extend_length]
    omega

/-! ## Theorems: flatten headers -/

/-- Counterexample to C9 as stated: the bases-ordering header synthesizes
`A,C,G,T` whether or not they were observed — with only `A` ever
incremented, `C` appears in the header although it was never observed. -/
theorem c9_header_synthesized_keys_counterexample :
    'C' ∈ (BaseCountingDicts.flattenN [CountingDict.incr [] 'A']).1 ∧
    'C' ∉ BaseCountingDicts.observedKeys [CountingDict.incr [] 'A'] := by
  decide

/-- C9 (corrected): the plain sorted header contains exactly the observed
keys; the bases-ordering header always contains `A,C,G,T` (observed or
not), contains any other symbol exactly when it was observed, and ends in
`N` whenever `N` was observed. -/
theorem c9_header_membership :
    (∀ (dicts : List (CountingDict Char)) (k : Char),
      k ∈ (BaseCountingDicts.flattenSorted dicts).1 ↔
        k ∈ BaseCountingDicts.observedKeys dicts) ∧
    (∀ (dicts : List (CountingDict Char)) (k : Char),
      k ∈ (BaseCountingDicts.flattenN dicts).1 ↔
        (k ∈ (['A', 'C', 'G', 'T'] : List Char) ∨
          k ∈ BaseCountingDicts.observedKeys dicts)) ∧
    (∀ dicts : List (CountingDict Char),
      'N' ∈ BaseCountingDicts.observedKeys dicts →
      ∃ l, (BaseCountingDicts.flattenN dicts).1 = l ++ ['N']) := by
  refine ⟨?_, ?_, ?_⟩
  · intro dicts k
    unfold BaseCountingDicts.flattenSorted BaseCountingDicts.headerSorted
    exact (List.perm_insertionSort _ _).mem_iff
  · intro dicts k
    unfold BaseCountingDicts.flattenN BaseCountingDicts.headerN
    dsimp only
    by_cases hN : 'N' ∈ BaseCountingDicts.observedKeys dicts <;>
      simp only [hN, if_true, if_false, reduceIte, List.mem_append,
        List.mem_filter, decide_eq_true_eq, List.mem_singleton,
        List.not_mem_nil, or_false] <;>
      constructor
    · rintro ((h | h) | h)
      · exact Or.inl h
      · exact Or.inr h.1
      · subst h; exact Or.inr hN
    · rintro (h | h)
      · exact Or.inl (Or.inl h)
      · by_cases hk : k ∈ (['A', 'C', 'G', 'T'] : List Char)
        · exact Or.inl (Or.inl hk)
        · by_cases hkN : k = 'N'
          · exact Or.inr hkN
          · refine Or.inl (Or.inr ⟨h, ?_⟩)
            simp [hk, hkN]
    · rintro (h | h)
      · exact Or.inl h
      · exact Or.inr h.1
    · rintro (h | h)
      · exact Or.inl h
      · by_cases hk : k ∈ (['A', 'C', 'G', 'T'] : List Char)
        · exact Or.inl hk
        · have hkN : k ≠ 'N' := fun he => hN (he ▸ h)
          refine Or.inr ⟨h, ?_⟩
          simp [hk, hkN]
  · intro dicts h
    unfold BaseCountingDicts.flattenN BaseCountingDicts.headerN
    dsimp only
    rw [if_pos h]
    exact ⟨_, rfl⟩

/-- Witness for C9: with `N` observed, the bases-ordering header ends in
`N`. -/
theorem c9_header_membership_witness :
    'N' ∈ BaseCountingDicts.observedKeys [CountingDict.incr [] 'N'] ∧
    ∃ l, (BaseCountingDicts.flattenN [CountingDict.incr [] 'N']).1 =
      l ++ ['N'] :=
  ⟨by decide, c9_header_membership.2.2 [CountingDict.incr [] 'N'] (by decide)⟩

end Atropos
